import Mathlib

/-!
Verification of the gfc 2D shape/collision core against its specification.

The repository ships the public header `src/include/gfc_shape.h` (declarations
and documented behaviour of the shape operations) together with
`src/unnamed/part_000`, a small C translation unit containing
`gfc_random_seeded`, `gfc_sdl_rect` and `gfc_allocate_array`.  The bodies of
the geometry functions themselves (`gfc_shape.c`) are not part of the source
tree, so the geometry operations below are modelled from the specification,
as noted in each doc comment.  C `double`/`float` values are embedded as
exact rationals (`ℚ`); the spec states the math is exact given IEEE-754
semantics, and all comparisons in the algorithms are order/equality tests
that this embedding preserves.  Points whose coordinates involve a square
root (circle contact points, unit normals) are encoded exactly by the
`SqrtPt` record below, interpreted over `ℝ` in the theorems.
-/

namespace Gfc

/-- Model of `Vector2D` (two float components) from `gfc_vector.h`. -/
structure Vector2D where
  x : ℚ
  y : ℚ
deriving DecidableEq

/-- Model of `Rect {double x,y,w,h}` from `gfc_shape.h`. -/
structure Rect where
  x : ℚ
  y : ℚ
  w : ℚ
  h : ℚ
deriving DecidableEq

/-- Model of `Circle {double x,y,r}` from `gfc_shape.h`. -/
structure Circle where
  x : ℚ
  y : ℚ
  r : ℚ
deriving DecidableEq

/-- Model of `Edge {double x1,y1,x2,y2}` from `gfc_shape.h`. -/
structure Edge where
  x1 : ℚ
  y1 : ℚ
  x2 : ℚ
  y2 : ℚ
deriving DecidableEq

/-- Model of the tagged union `Shape` (`ShapeTypes` discriminant plus the
active payload), as a sum type per the data model in the spec. -/
inductive Shape where
  | rect : Rect → Shape
  | circle : Circle → Shape
  | edge : Edge → Shape
deriving DecidableEq

/-- Exact encoding of a point whose coordinates may involve one square root:
`SqrtPt px py co rad dx dy` denotes the real point
`(px + co * sqrt rad * dx, py + co * sqrt rad * dy)`.  All the contact
points and normals produced by the modelled operations have this shape. -/
structure SqrtPt where
  px : ℚ
  py : ℚ
  co : ℚ
  rad : ℚ
  dx : ℚ
  dy : ℚ
deriving DecidableEq

/-- Modelled from the spec (§4.2; `gfc_shape.c` is absent from src/):
`gfc_point_in_rect` is true iff `r.x ≤ p.x ≤ r.x+r.w` and
`r.y ≤ p.y ≤ r.y+r.h`, inclusive on all four sides. -/
def gfc_point_in_rect (p : Vector2D) (r : Rect) : Bool :=
  decide (r.x ≤ p.x ∧ p.x ≤ r.x + r.w ∧ r.y ≤ p.y ∧ p.y ≤ r.y + r.h)

/-- Modelled from the spec (§4.2; `gfc_shape.c` is absent from src/):
`gfc_point_in_cicle` (sic, the header's spelling) is true iff the squared
distance from the point to the center is at most `r²`. -/
def gfc_point_in_cicle (p : Vector2D) (c : Circle) : Bool :=
  decide ((p.x - c.x) ^ 2 + (p.y - c.y) ^ 2 ≤ c.r ^ 2)

/-- Modelled from the spec (§4.3; `gfc_shape.c` is absent from src/):
axis-aligned rect overlap with strict inequalities on both projections. -/
def gfc_rect_overlap (a b : Rect) : Bool :=
  decide (a.x < b.x + b.w ∧ b.x < a.x + a.w ∧ a.y < b.y + b.h ∧ b.y < a.y + a.h)

/-- Squared distance between the centers of two circles. -/
def circleDist2 (a b : Circle) : ℚ :=
  (b.x - a.x) ^ 2 + (b.y - a.y) ^ 2

/-- Modelled from the spec (§4.4; `gfc_shape.c` is absent from src/):
`gfc_circle_overlap` is true iff the distance between the centers is
strictly less than the sum of the radii.  The distance comparison is
performed on squares, guarded by `0 ≤ a.r + b.r` so that it is equivalent
to `dist < a.r + b.r` for every sign of the radii. -/
def gfc_circle_overlap (a b : Circle) : Bool :=
  decide (0 ≤ a.r + b.r ∧ circleDist2 a b < (a.r + b.r) ^ 2)

/-- Clamp a value into the interval `[lo, hi]`. -/
def clampQ (v lo hi : ℚ) : ℚ := max lo (min v hi)

/-- Modelled from the spec (§4.5; `gfc_shape.c` is absent from src/):
clamp the circle center to the rect to find the nearest rect point; overlap
iff the distance from that clamped point to the center is at most the
radius (squared-distance form, guarded by `0 ≤ a.r`). -/
def gfc_circle_rect_overlap (a : Circle) (b : Rect) : Bool :=
  let cx := clampQ a.x b.x (b.x + b.w)
  let cy := clampQ a.y b.y (b.y + b.h)
  decide (0 ≤ a.r ∧ (a.x - cx) ^ 2 + (a.y - cy) ^ 2 ≤ a.r ^ 2)

/-- Determinant of the 2×2 system of the parametric edge intersection
(§4.6): the cross product of the two direction vectors. -/
def edgeDet (a b : Edge) : ℚ :=
  (a.x2 - a.x1) * (b.y2 - b.y1) - (a.y2 - a.y1) * (b.x2 - b.x1)

/-- Numerator of the parameter `t` (position along edge `a`) of the
parametric edge intersection (§4.6). -/
def edgeTN (a b : Edge) : ℚ :=
  (b.x1 - a.x1) * (b.y2 - b.y1) - (b.y1 - a.y1) * (b.x2 - b.x1)

/-- Numerator of the parameter `u` (position along edge `b`) of the
parametric edge intersection (§4.6). -/
def edgeUN (a b : Edge) : ℚ :=
  (b.x1 - a.x1) * (a.y2 - a.y1) - (b.y1 - a.y1) * (a.x2 - a.x1)

/-- Parameter `t` of the parametric edge intersection. -/
def edgeT (a b : Edge) : ℚ := edgeTN a b / edgeDet a b

/-- Parameter `u` of the parametric edge intersection. -/
def edgeU (a b : Edge) : ℚ := edgeUN a b / edgeDet a b

/-- Modelled from the spec (§4.6; `gfc_shape.c` is absent from src/):
solve the 2×2 linear system for `t` and `u`; intersection exists iff the
determinant is non-zero and both parameters lie in `[0,1]` (inclusive).
Parallel/collinear edges are treated as non-intersecting.  The optional
`contact` and `normal` output pointers of the C signature are modelled by
the two `want` flags: an output is produced only when its flag is set
(non-NULL pointer) and there is an intersection.  The contact is the
resolved point on edge `a`; the normal is the unit vector perpendicular to
edge `b`, encoded exactly as a `SqrtPt`. -/
def gfc_edge_intersect_poc (a b : Edge) (wantContact wantNormal : Bool) :
    Bool × Option Vector2D × Option SqrtPt :=
  let hit := decide (edgeDet a b ≠ 0 ∧
    0 ≤ edgeT a b ∧ edgeT a b ≤ 1 ∧ 0 ≤ edgeU a b ∧ edgeU a b ≤ 1)
  let contact : Vector2D :=
    ⟨a.x1 + edgeT a b * (a.x2 - a.x1), a.y1 + edgeT a b * (a.y2 - a.y1)⟩
  let db2 := (b.x2 - b.x1) ^ 2 + (b.y2 - b.y1) ^ 2
  let normal : SqrtPt := ⟨0, 0, 1 / db2, db2, b.y2 - b.y1, -(b.x2 - b.x1)⟩
  (hit,
   if wantContact && hit then some contact else none,
   if wantNormal && hit then some normal else none)

/-- Modelled from the spec (§4.6; `gfc_shape.c` is absent from src/):
the boolean-only edge intersection, the poc variant with both output
pointers NULL. -/
def gfc_edge_intersect (a b : Edge) : Bool :=
  (gfc_edge_intersect_poc a b false false).1

/-- Modelled from the spec (§4.4 and §7; `gfc_shape.c` is absent from
src/): circle overlap with optional point-of-contact and normal outputs.
The contact is the point at distance `a.r` from a's center along the unit
direction toward b, `A + (a.r/d)·(B-A)`; the normal is that unit
direction.  Both are encoded exactly as `SqrtPt` values
(`a.r/d = (a.r/d²)·√(d²)`).  The optional output pointers are modelled by
the two `want` flags; an output is produced only when its flag is set
(non-NULL pointer) and there is an overlap. -/
def gfc_circle_overlap_poc (a b : Circle) (wantPoc wantNormal : Bool) :
    Bool × Option SqrtPt × Option SqrtPt :=
  let hit := decide (0 ≤ a.r + b.r ∧ circleDist2 a b < (a.r + b.r) ^ 2)
  let d2 := circleDist2 a b
  let poc : SqrtPt := ⟨a.x, a.y, a.r / d2, d2, b.x - a.x, b.y - a.y⟩
  let normal : SqrtPt := ⟨0, 0, 1 / d2, d2, b.x - a.x, b.y - a.y⟩
  (hit,
   if wantPoc && hit then some poc else none,
   if wantNormal && hit then some normal else none)

/-- Modelled from the spec (§4.7; `gfc_shape.c` is absent from src/):
whether the quadratic `qa·t² + qb·t + qc = 0` obtained by substituting the
parametric segment into the circle equation has a real root `t ∈ [0,1]`.
For `qa > 0` a root lies in `[0,1]` iff the endpoint values have opposite
signs (or vanish), or both are nonnegative, the discriminant is
nonnegative and the vertex `-qb/(2qa)` lies in `[0,1]`.  A zero-length
edge (`qa = 0`, hence `qb = 0`) intersects iff its point is exactly on the
circle (`qc = 0`). -/
def gfc_edge_circle_intersection (e : Edge) (c : Circle) : Bool :=
  let dx := e.x2 - e.x1
  let dy := e.y2 - e.y1
  let fx := e.x1 - c.x
  let fy := e.y1 - c.y
  let qa := dx ^ 2 + dy ^ 2
  let qb := 2 * (dx * fx + dy * fy)
  let qc := fx ^ 2 + fy ^ 2 - c.r ^ 2
  if qa = 0 then decide (qc = 0)
  else
    decide (qb ^ 2 - 4 * qa * qc ≥ 0 ∧
      (qc * (qa + qb + qc) ≤ 0 ∨
        (0 ≤ qc ∧ 0 ≤ qa + qb + qc ∧ 0 ≤ -qb ∧ -qb ≤ 2 * qa)))

/-- Edges of the rectangle boundary: top edge. -/
def rectTopEdge (r : Rect) : Edge := ⟨r.x, r.y, r.x + r.w, r.y⟩

/-- Edges of the rectangle boundary: bottom edge. -/
def rectBottomEdge (r : Rect) : Edge := ⟨r.x, r.y + r.h, r.x + r.w, r.y + r.h⟩

/-- Edges of the rectangle boundary: left edge. -/
def rectLeftEdge (r : Rect) : Edge := ⟨r.x, r.y, r.x, r.y + r.h⟩

/-- Edges of the rectangle boundary: right edge. -/
def rectRightEdge (r : Rect) : Edge := ⟨r.x + r.w, r.y, r.x + r.w, r.y + r.h⟩

/-- Modelled from the spec (§4.7; `gfc_shape.c` is absent from src/):
an edge intersects a rect iff an endpoint lies inside the rect (the
inside-test optimization for fully contained edges) or the edge intersects
one of the rectangle's four boundary edges. -/
def gfc_edge_rect_intersection (e : Edge) (r : Rect) : Bool :=
  gfc_point_in_rect ⟨e.x1, e.y1⟩ r ||
  gfc_edge_intersect e (rectTopEdge r) ||
  gfc_edge_intersect e (rectBottomEdge r) ||
  gfc_edge_intersect e (rectLeftEdge r) ||
  gfc_edge_intersect e (rectRightEdge r)

/-- Modelled from the spec (§4.2 and §4.8; `gfc_shape.c` is absent from
src/): `gfc_point_in_shape` dispatches on the active tag to the rect and
circle point tests; the Edge case always returns false (a 1D edge has no
interior, explicit documented policy). -/
def gfc_point_in_shape (p : Vector2D) (s : Shape) : Bool :=
  match s with
  | .rect r => gfc_point_in_rect p r
  | .circle c => gfc_point_in_cicle p c
  | .edge _ => false

/-- Modelled from the spec (§4.8; `gfc_shape.c` is absent from src/):
`gfc_shape_overlap` switches on the pair of tags and delegates to the
pairwise tests, with symmetric pairs delegating with operands swapped. -/
def gfc_shape_overlap (a b : Shape) : Bool :=
  match a, b with
  | .rect ra, .rect rb => gfc_rect_overlap ra rb
  | .rect ra, .circle cb => gfc_circle_rect_overlap cb ra
  | .rect ra, .edge eb => gfc_edge_rect_intersection eb ra
  | .circle ca, .rect rb => gfc_circle_rect_overlap ca rb
  | .circle ca, .circle cb => gfc_circle_overlap ca cb
  | .circle ca, .edge eb => gfc_edge_circle_intersection eb ca
  | .edge ea, .rect rb => gfc_edge_rect_intersection ea rb
  | .edge ea, .circle cb => gfc_edge_circle_intersection ea cb
  | .edge ea, .edge eb => gfc_edge_intersect ea eb

/-- Coefficient `k = (d² + r_a² - r_b²)/(2d²)` of the two-circle
intersection: the spec's `a = (d² + r_a² - r_b²)/(2d)` divided by `d`, so
that `a·unitDir = k·(B-A)` is rational. -/
def circleK (A B : Circle) : ℚ :=
  (circleDist2 A B + A.r ^ 2 - B.r ^ 2) / (2 * circleDist2 A B)

/-- Chord midpoint of the two-circle intersection, `A + k·(B-A)`; the
rational form of the spec's `centerA + a·unitDir`. -/
def circleMid (A B : Circle) : ℚ × ℚ :=
  (A.x + circleK A B * (B.x - A.x), A.y + circleK A B * (B.y - A.y))

/-- Radicand `(h/d)²` of the two-circle intersection offset: the spec's
half-chord `h = sqrt(r_a² - a²)` divided by the center distance, squared,
so that the offset `±h·perpendicular(unitDir)` is exactly
`±sqrt(circleRad)·(-(B-A).y, (B-A).x)`. -/
def circleRad (A B : Circle) : ℚ :=
  A.r ^ 2 / circleDist2 A B - circleK A B ^ 2

/-- Modelled from the spec (§4.4; `gfc_shape.c` is absent from src/):
the exact two-circle intersection.  Returns the count (-1 identical, 0
none, 1 tangent, 2 proper) together with the two intersection points when
the count is 1 or 2.  Distance comparisons are performed on squared
distances, equivalent to the spec's comparisons against `d` for the
nonnegative radii the data model guarantees (the claim theorem below
proves this equivalence).  The chord midpoint is `circleMid` and the
points are offset by `±√(circleRad)·(-(B-A).y, (B-A).x)`, the exact
`SqrtPt` form of the spec's `midpoint ± h·perpendicular(unitDir)`; at
tangency the radicand is zero and both points coincide. -/
def gfc_circle_intersect_circle (A B : Circle) :
    Int × Option (SqrtPt × SqrtPt) :=
  if A = B then (-1, none)
  else if circleDist2 A B > (A.r + B.r) ^ 2 ∨ circleDist2 A B < (A.r - B.r) ^ 2
  then (0, none)
  else
    ((if circleDist2 A B = (A.r + B.r) ^ 2 ∨ circleDist2 A B = (A.r - B.r) ^ 2
      then (1 : Int) else 2),
     some (⟨(circleMid A B).1, (circleMid A B).2, 1, circleRad A B,
            -(B.y - A.y), B.x - A.x⟩,
           ⟨(circleMid A B).1, (circleMid A B).2, -1, circleRad A B,
            -(B.y - A.y), B.x - A.x⟩))

/-- Embed an exact rational point as a degenerate `SqrtPt` (zero square
root part), for the shape-level dispatch whose delegates produce plain
rational outputs. -/
def vecToSqrtPt (v : Vector2D) : SqrtPt := ⟨v.x, v.y, 0, 0, 0, 0⟩

/-- Negation of the vector a `SqrtPt` denotes, used when the shape-level
dispatch swaps operands and negates the returned normal (spec §4.8). -/
def sqrtPtNeg (p : SqrtPt) : SqrtPt := ⟨-p.px, -p.py, -p.co, p.rad, p.dx, p.dy⟩

/-- Contact point of the parametric edge intersection (§4.6): the
resolved point on edge `a` at parameter `t`. -/
def edgeContact (a b : Edge) : Vector2D :=
  ⟨a.x1 + edgeT a b * (a.x2 - a.x1), a.y1 + edgeT a b * (a.y2 - a.y1)⟩

/-- Unit normal perpendicular to edge `b` (§4.6), encoded exactly
(`(dy,-dx)/|db| = (1/|db|²)·√(|db|²)·(dy,-dx)`). -/
def edgeNormal (b : Edge) : SqrtPt :=
  let db2 := (b.x2 - b.x1) ^ 2 + (b.y2 - b.y1) ^ 2
  ⟨0, 0, 1 / db2, db2, b.y2 - b.y1, -(b.x2 - b.x1)⟩

/-- Modelled from the spec (§4.3 and §7; `gfc_shape.c` is absent from
src/): rect overlap with the minimum-translation-vector point of contact
and normal.  The axis with the smaller penetration depth is chosen, the
x-axis winning ties as §4.3 suggests documenting; the normal is the unit
vector along that axis pointing from b toward a (by center comparison),
and the contact is the point on a's penetrated boundary at the midpoint
of the overlap interval on the other axis (the spec fixes only "the
clipped boundary").  The optional output pointers are modelled by the two
`want` flags; an output is produced only when its flag is set (non-NULL
pointer) and there is an overlap. -/
def gfc_rect_overlap_poc (a b : Rect) (wantPoc wantNormal : Bool) :
    Bool × Option Vector2D × Option Vector2D :=
  let hit := gfc_rect_overlap a b
  let overlapX := min (a.x + a.w) (b.x + b.w) - max a.x b.x
  let overlapY := min (a.y + a.h) (b.y + b.h) - max a.y b.y
  let fromBx := b.x + b.w / 2 ≤ a.x + a.w / 2
  let fromBy := b.y + b.h / 2 ≤ a.y + a.h / 2
  let normal : Vector2D :=
    if overlapX ≤ overlapY then (if fromBx then ⟨1, 0⟩ else ⟨-1, 0⟩)
    else (if fromBy then ⟨0, 1⟩ else ⟨0, -1⟩)
  let poc : Vector2D :=
    if overlapX ≤ overlapY then
      ⟨(if fromBx then a.x else a.x + a.w),
       (max a.y b.y + min (a.y + a.h) (b.y + b.h)) / 2⟩
    else
      ⟨(max a.x b.x + min (a.x + a.w) (b.x + b.w)) / 2,
       (if fromBy then a.y else a.y + a.h)⟩
  (hit,
   if wantPoc && hit then some poc else none,
   if wantNormal && hit then some normal else none)

/-- Modelled from the spec (§4.5 and §7; `gfc_shape.c` is absent from
src/): circle-rect overlap with point of contact and normal.  The contact
is the circle center clamped to the rect; the normal is the normalized
vector from that point to the center (exact `SqrtPt` encoding), or, when
the center lies inside the rect (clamped point = center), the outward
unit vector along the axis of least penetration, ties broken in the order
left, right, top, bottom.  The optional output pointers are modelled by
the two `want` flags; an output is produced only when its flag is set
(non-NULL pointer) and there is an overlap. -/
def gfc_circle_rect_overlap_poc (a : Circle) (b : Rect)
    (wantPoc wantNormal : Bool) :
    Bool × Option Vector2D × Option SqrtPt :=
  let hit := gfc_circle_rect_overlap a b
  let cx := clampQ a.x b.x (b.x + b.w)
  let cy := clampQ a.y b.y (b.y + b.h)
  let n2 := (a.x - cx) ^ 2 + (a.y - cy) ^ 2
  let dl := a.x - b.x
  let dr := b.x + b.w - a.x
  let dt := a.y - b.y
  let db := b.y + b.h - a.y
  let inside : Vector2D :=
    if dl ≤ dr ∧ dl ≤ dt ∧ dl ≤ db then ⟨-1, 0⟩
    else if dr ≤ dt ∧ dr ≤ db then ⟨1, 0⟩
    else if dt ≤ db then ⟨0, -1⟩ else ⟨0, 1⟩
  let normal : SqrtPt :=
    if n2 = 0 then ⟨inside.x, inside.y, 0, 0, 0, 0⟩
    else ⟨0, 0, 1 / n2, n2, a.x - cx, a.y - cy⟩
  (hit,
   if wantPoc && hit then some (⟨cx, cy⟩ : Vector2D) else none,
   if wantNormal && hit then some normal else none)

/-- Modelled from the spec (§4.7 and §7; `gfc_shape.c` is absent from
src/): edge-rect intersection with point of contact and normal.  If an
endpoint of the edge lies inside the rect the contact is that endpoint
(with a zero normal, which the spec leaves unspecified for this case);
otherwise the rect's four boundary edges are tested in the order top,
bottom, left, right and the first hit supplies the §4.6 contact and the
unit normal of that boundary edge.  The optional output pointers are
modelled by the two `want` flags; an output is produced only when its
flag is set (non-NULL pointer) and there is an intersection. -/
def gfc_edge_rect_intersection_poc (e : Edge) (r : Rect)
    (wantPoc wantNormal : Bool) :
    Bool × Option Vector2D × Option SqrtPt :=
  let hit := gfc_edge_rect_intersection e r
  let out : Vector2D × SqrtPt :=
    if gfc_point_in_rect ⟨e.x1, e.y1⟩ r then (⟨e.x1, e.y1⟩, ⟨0, 0, 0, 0, 0, 0⟩)
    else if gfc_edge_intersect e (rectTopEdge r) then
      (edgeContact e (rectTopEdge r), edgeNormal (rectTopEdge r))
    else if gfc_edge_intersect e (rectBottomEdge r) then
      (edgeContact e (rectBottomEdge r), edgeNormal (rectBottomEdge r))
    else if gfc_edge_intersect e (rectLeftEdge r) then
      (edgeContact e (rectLeftEdge r), edgeNormal (rectLeftEdge r))
    else
      (edgeContact e (rectRightEdge r), edgeNormal (rectRightEdge r))
  (hit,
   if wantPoc && hit then some out.1 else none,
   if wantNormal && hit then some out.2 else none)

/-- Modelled from the spec (§4.7 and §7; `gfc_shape.c` is absent from
src/): edge-circle intersection with point of contact and normal.  The
contact is the segment point at the nearest valid root (smallest
`t ∈ [0,1]`) of the §4.7 quadratic `qa·t² + qb·t + qc`: for `qa > 0` the
smaller root `(-qb-√disc)/(2qa)` lies in `[0,1]` iff `qb ≤ 0`, `qc ≥ 0`
and (`qb+2qa ≥ 0` or `qa+qb+qc ≤ 0`) (the squared forms of the root
bounds), else the larger root is used; a zero-length edge contributes its
point.  The normal is the radius vector at the contact divided by the
radius.  Both are exact `SqrtPt` encodings in `√disc`.  The optional
output pointers are modelled by the two `want` flags; an output is
produced only when its flag is set (non-NULL pointer) and there is an
intersection. -/
def gfc_edge_circle_intersection_poc (e : Edge) (c : Circle)
    (wantPoc wantNormal : Bool) :
    Bool × Option SqrtPt × Option SqrtPt :=
  let hit := gfc_edge_circle_intersection e c
  let dx := e.x2 - e.x1
  let dy := e.y2 - e.y1
  let qa := dx ^ 2 + dy ^ 2
  let qb := 2 * (dx * (e.x1 - c.x) + dy * (e.y1 - c.y))
  let qc := (e.x1 - c.x) ^ 2 + (e.y1 - c.y) ^ 2 - c.r ^ 2
  let disc := qb ^ 2 - 4 * qa * qc
  let r1mem := qb ≤ 0 ∧ 0 ≤ qc ∧ (0 ≤ qb + 2 * qa ∨ qa + qb + qc ≤ 0)
  let co := if qa = 0 then 0 else if r1mem then -1 / (2 * qa) else 1 / (2 * qa)
  let bx := e.x1 - qb / (2 * qa) * dx
  let bby := e.y1 - qb / (2 * qa) * dy
  let poc : SqrtPt :=
    if qa = 0 then ⟨e.x1, e.y1, 0, 0, 0, 0⟩ else ⟨bx, bby, co, disc, dx, dy⟩
  let normal : SqrtPt :=
    if qa = 0 then ⟨(e.x1 - c.x) / c.r, (e.y1 - c.y) / c.r, 0, 0, 0, 0⟩
    else ⟨(bx - c.x) / c.r, (bby - c.y) / c.r, co / c.r, disc, dx, dy⟩
  (hit,
   if wantPoc && hit then some poc else none,
   if wantNormal && hit then some normal else none)

/-- Modelled from the spec (§4.8; `gfc_shape.c` is absent from src/):
edge-vs-shape dispatch on the shape's tag, the boolean-only variant. -/
def gfc_edge_intersect_shape (e : Edge) (s : Shape) : Bool :=
  match s with
  | .rect r => gfc_edge_rect_intersection e r
  | .circle c => gfc_edge_circle_intersection e c
  | .edge e2 => gfc_edge_intersect e e2

/-- Modelled from the spec (§4.8 and §7; `gfc_shape.c` is absent from
src/): edge-vs-shape dispatch with point of contact and normal,
delegating to the pairwise poc variants (rational contacts embedded as
degenerate `SqrtPt`).  The optional output pointers are modelled by the
two `want` flags. -/
def gfc_edge_intersect_shape_poc (e : Edge) (s : Shape)
    (wantPoc wantNormal : Bool) :
    Bool × Option SqrtPt × Option SqrtPt :=
  match s with
  | .rect r =>
    let out := gfc_edge_rect_intersection_poc e r wantPoc wantNormal
    (out.1, Option.map vecToSqrtPt out.2.1, out.2.2)
  | .circle c => gfc_edge_circle_intersection_poc e c wantPoc wantNormal
  | .edge e2 =>
    let out := gfc_edge_intersect_poc e e2 wantPoc wantNormal
    (out.1, Option.map vecToSqrtPt out.2.1, out.2.2)

/-- Modelled from the spec (§4.8 and §7; `gfc_shape.c` is absent from
src/): shape-vs-shape overlap with point of contact and normal, switching
on the pair of tags; symmetric pairs delegate with operands swapped and
the returned normal negated, and rational contacts are embedded as
degenerate `SqrtPt`.  The optional output pointers are modelled by the
two `want` flags. -/
def gfc_shape_overlap_poc (a b : Shape) (wantPoc wantNormal : Bool) :
    Bool × Option SqrtPt × Option SqrtPt :=
  match a, b with
  | .rect ra, .rect rb =>
    let out := gfc_rect_overlap_poc ra rb wantPoc wantNormal
    (out.1, Option.map vecToSqrtPt out.2.1, Option.map vecToSqrtPt out.2.2)
  | .rect ra, .circle cb =>
    let out := gfc_circle_rect_overlap_poc cb ra wantPoc wantNormal
    (out.1, Option.map vecToSqrtPt out.2.1, Option.map sqrtPtNeg out.2.2)
  | .rect ra, .edge eb =>
    let out := gfc_edge_rect_intersection_poc eb ra wantPoc wantNormal
    (out.1, Option.map vecToSqrtPt out.2.1, Option.map sqrtPtNeg out.2.2)
  | .circle ca, .rect rb =>
    let out := gfc_circle_rect_overlap_poc ca rb wantPoc wantNormal
    (out.1, Option.map vecToSqrtPt out.2.1, out.2.2)
  | .circle ca, .circle cb => gfc_circle_overlap_poc ca cb wantPoc wantNormal
  | .circle ca, .edge eb =>
    let out := gfc_edge_circle_intersection_poc eb ca wantPoc wantNormal
    (out.1, out.2.1, Option.map sqrtPtNeg out.2.2)
  | .edge ea, .rect rb =>
    let out := gfc_edge_rect_intersection_poc ea rb wantPoc wantNormal
    (out.1, Option.map vecToSqrtPt out.2.1, out.2.2)
  | .edge ea, .circle cb => gfc_edge_circle_intersection_poc ea cb wantPoc wantNormal
  | .edge ea, .edge eb =>
    let out := gfc_edge_intersect_poc ea eb wantPoc wantNormal
    (out.1, Option.map vecToSqrtPt out.2.1, out.2.2)

/-- Modelled from the spec (§4.4 and §7; `gfc_shape.c` is absent from
src/): the pocA/pocB pointer protocol of `gfc_circle_intersect_circle`.
A false flag models a NULL pointer: that output is never produced; when
the flag is set the corresponding intersection point is produced exactly
when the count is 1 or 2; the integer result is always that of
`gfc_circle_intersect_circle` regardless of the flags. -/
def gfc_circle_intersect_circle_pocs (A B : Circle) (wantA wantB : Bool) :
    Int × Option SqrtPt × Option SqrtPt :=
  let r := gfc_circle_intersect_circle A B
  (r.1,
   if wantA then Option.map Prod.fst r.2 else none,
   if wantB then Option.map Prod.snd r.2 else none)

/-- Model of `SDL_Rect` (four C `int` fields) at the graphics boundary. -/
structure SDL_Rect where
  x : ℤ
  y : ℤ
  w : ℤ
  h : ℤ
deriving DecidableEq

/-- Model of `Vector4D` (four float components) from `gfc_vector.h`. -/
structure Vector4D where
  x : ℚ
  y : ℚ
  z : ℚ
  w : ℚ
deriving DecidableEq

/-- Truncation of a rational toward zero, the semantics of a C
`double`-to-`int` conversion (`Int.tdiv` is T-division). -/
def truncQ (q : ℚ) : ℤ := Int.tdiv q.num q.den

/-- Modelled from the spec (§6, field-for-field copy with no scaling;
`gfc_shape.c` is absent from src/): convert an SDL rect to a gfc Rect.
The C `int`-to-`double` assignment is exact. -/
def gfc_rect_from_sdl_rect (r : SDL_Rect) : Rect :=
  ⟨(r.x : ℚ), (r.y : ℚ), (r.w : ℚ), (r.h : ℚ)⟩

/-- Modelled from the spec (§6, field-for-field copy with no scaling;
`gfc_shape.c` is absent from src/): convert a gfc Rect to an SDL rect.
The C `double`-to-`int` assignment truncates toward zero. -/
def gfc_rect_to_sdl_rect (r : Rect) : SDL_Rect :=
  ⟨truncQ r.x, truncQ r.y, truncQ r.w, truncQ r.h⟩

/-- Modelled from the spec (§6, field-for-field copy with no scaling;
`gfc_shape.c` is absent from src/): build a Rect from a Vector4D
(`x,y,z,w` become `x,y,w,h`). -/
def gfc_rect_from_vector4 (v : Vector4D) : Rect := ⟨v.x, v.y, v.z, v.w⟩

/-- Modelled from the spec (§6, field-for-field copy with no scaling;
`gfc_shape.c` is absent from src/): convert a Rect to a Vector4D. -/
def gfc_rect_to_vector4d (r : Rect) : Vector4D := ⟨r.x, r.y, r.w, r.h⟩

/-- Modelled from the C standard library (outside the repository): `srand`
overwrites the global PRNG state with the seed (a C `unsigned int`).  The
global state is passed explicitly; the second argument is the state before
the call, which `srand` discards. -/
def srandModel (seed : Nat) (_st : Nat) : Nat := seed % 2 ^ 32

/-- Modelled from the C standard library (outside the repository): `rand`
advances the global PRNG state and returns a value in `[0, 32767]`, per
the C standard's reference implementation
(`next = next*1103515245 + 12345; return (next/65536) % 32768`). -/
def randModel (st : Nat) : Nat × Nat :=
  let st2 := (st * 1103515245 + 12345) % 2 ^ 64
  ((st2 / 65536) % 32768, st2)

/-- Modelled from the spec: `gfc_random` is declared in `gfc_types.h`,
which is not under src/; modelled, per its use in `gfc_random_seeded`, as
returning `rand()` scaled into `[0,1]` by `RAND_MAX`, reading and
advancing the global PRNG state. -/
def gfc_random (st : Nat) : ℚ × Nat :=
  let r := randModel st
  ((r.1 : ℚ) / 32767, r.2)

/-- Embedding of `gfc_random_seeded` from `src/unnamed/part_000` lines
9-13: `srand(seed); return gfc_random();`.  The global PRNG state is
passed explicitly: the result is the returned float together with the
global state after the call. -/
def gfc_random_seeded (seed : Nat) (st : Nat) : ℚ × Nat :=
  gfc_random (srandModel seed st)

/-- Embedding of `gfc_sdl_rect` from `src/unnamed/part_000` lines 15-23:
builds an SDL rect field-for-field (the `Uint32` width/height are assigned
to the rect's `int` fields; values below `2^31` are unchanged, modelled
here directly on `ℤ`). -/
def gfc_sdl_rect (x y w h : ℤ) : SDL_Rect := ⟨x, y, w, h⟩

/-- Embedding of `gfc_allocate_array` from `src/unnamed/part_000` lines
25-46.  `typeSize` and `count` are `size_t` (so `count <= 0` is
`count == 0`); the `malloc` request size is the `size_t` product
`typeSize * count`, which wraps modulo `2^64`; `malloc` itself is modelled
by the `alloc` oracle (true = allocation succeeds); `memset` zero-fills
the allocated block.  The result is the block as a list of bytes, or
`none` for a NULL return. -/
def gfc_allocate_array (alloc : Nat → Bool) (typeSize count : Nat) :
    Option (List Nat) :=
  if count = 0 then none
  else if typeSize = 0 then none
  else
    let size := typeSize * count % 2 ^ 64
    if alloc size then some (List.replicate size 0) else none

/-! Helper lemmas shared by the claim theorems. -/

lemma gfc_edge_intersect_eq (a b : Edge) :
    gfc_edge_intersect a b = decide (edgeDet a b ≠ 0 ∧
      0 ≤ edgeT a b ∧ edgeT a b ≤ 1 ∧ 0 ≤ edgeU a b ∧ edgeU a b ≤ 1) := rfl

lemma edge_solution_x (a b : Edge) (hd : edgeDet a b ≠ 0) :
    a.x1 + edgeT a b * (a.x2 - a.x1) = b.x1 + edgeU a b * (b.x2 - b.x1) := by
  rw [edgeT, edgeU]
  rw [edgeTN, edgeUN]
  rw [edgeDet] at hd ⊢
  field_simp
  ring

lemma edge_solution_y (a b : Edge) (hd : edgeDet a b ≠ 0) :
    a.y1 + edgeT a b * (a.y2 - a.y1) = b.y1 + edgeU a b * (b.y2 - b.y1) := by
  rw [edgeT, edgeU]
  rw [edgeTN, edgeUN]
  rw [edgeDet] at hd ⊢
  field_simp
  ring

lemma edge_param_unique (a b : Edge) (hd : edgeDet a b ≠ 0) (t u : ℚ)
    (hx : a.x1 + t * (a.x2 - a.x1) = b.x1 + u * (b.x2 - b.x1))
    (hy : a.y1 + t * (a.y2 - a.y1) = b.y1 + u * (b.y2 - b.y1)) :
    t = edgeT a b ∧ u = edgeU a b := by
  constructor
  · rw [edgeT, eq_div_iff hd, edgeTN, edgeDet]
    linear_combination (b.y2 - b.y1) * hx - (b.x2 - b.x1) * hy
  · rw [edgeU, eq_div_iff hd, edgeUN, edgeDet]
    linear_combination (a.y2 - a.y1) * hx - (a.x2 - a.x1) * hy

lemma gfc_edge_intersect_iff (a b : Edge) :
    gfc_edge_intersect a b = true ↔
      (edgeDet a b ≠ 0 ∧ ∃ t u : ℚ, 0 ≤ t ∧ t ≤ 1 ∧ 0 ≤ u ∧ u ≤ 1 ∧
        a.x1 + t * (a.x2 - a.x1) = b.x1 + u * (b.x2 - b.x1) ∧
        a.y1 + t * (a.y2 - a.y1) = b.y1 + u * (b.y2 - b.y1)) := by
  rw [gfc_edge_intersect_eq, decide_eq_true_eq]
  constructor
  · rintro ⟨hd, ht0, ht1, hu0, hu1⟩
    exact ⟨hd, edgeT a b, edgeU a b, ht0, ht1, hu0, hu1,
      edge_solution_x a b hd, edge_solution_y a b hd⟩
  · rintro ⟨hd, t, u, ht0, ht1, hu0, hu1, hx, hy⟩
    obtain ⟨hteq, hueq⟩ := edge_param_unique a b hd t u hx hy
    exact ⟨hd, hteq ▸ ht0, hteq ▸ ht1, hueq ▸ hu0, hueq ▸ hu1⟩

lemma edgeDet_swap (a b : Edge) : edgeDet b a = -edgeDet a b := by
  unfold edgeDet
  ring

lemma edgeTN_swap (a b : Edge) : edgeTN b a = -edgeUN a b := by
  unfold edgeTN edgeUN
  ring

lemma edgeUN_swap (a b : Edge) : edgeUN b a = -edgeTN a b := by
  unfold edgeTN edgeUN
  ring

lemma edgeT_swap (a b : Edge) : edgeT b a = edgeU a b := by
  rw [edgeT, edgeU, edgeTN_swap, edgeDet_swap, neg_div_neg_eq]

lemma edgeU_swap (a b : Edge) : edgeU b a = edgeT a b := by
  rw [edgeU, edgeT, edgeUN_swap, edgeDet_swap, neg_div_neg_eq]

lemma gfc_edge_intersect_symm (a b : Edge) :
    gfc_edge_intersect a b = gfc_edge_intersect b a := by
  rw [gfc_edge_intersect_eq, gfc_edge_intersect_eq]
  refine (decide_eq_decide.mpr ?_)
  rw [edgeDet_swap a b, edgeT_swap a b, edgeU_swap a b]
  simp only [ne_eq, neg_eq_zero]
  tauto

lemma gfc_rect_overlap_symm (a b : Rect) :
    gfc_rect_overlap a b = gfc_rect_overlap b a := by
  unfold gfc_rect_overlap
  exact decide_eq_decide.mpr (by tauto)

lemma circleDist2_symm (a b : Circle) : circleDist2 a b = circleDist2 b a := by
  unfold circleDist2
  ring

lemma gfc_circle_overlap_symm (a b : Circle) :
    gfc_circle_overlap a b = gfc_circle_overlap b a := by
  unfold gfc_circle_overlap
  refine (decide_eq_decide.mpr ?_)
  rw [circleDist2_symm, add_comm b.r a.r]

lemma circleDist2_nonneg (A B : Circle) : 0 ≤ circleDist2 A B := by
  unfold circleDist2
  positivity

lemma circleDist2_eq_zero_iff (A B : Circle) :
    circleDist2 A B = 0 ↔ B.x = A.x ∧ B.y = A.y := by
  unfold circleDist2
  constructor
  · intro h
    have h1 : (B.x - A.x) ^ 2 = 0 :=
      le_antisymm (by nlinarith [sq_nonneg (B.y - A.y)]) (sq_nonneg _)
    have h2 : (B.y - A.y) ^ 2 = 0 :=
      le_antisymm (by nlinarith [sq_nonneg (B.x - A.x)]) (sq_nonneg _)
    exact ⟨sub_eq_zero.mp ((pow_eq_zero_iff two_ne_zero).mp h1),
      sub_eq_zero.mp ((pow_eq_zero_iff two_ne_zero).mp h2)⟩
  · rintro ⟨h1, h2⟩
    rw [h1, h2]
    ring

lemma circle_eq_of_fields (A B : Circle)
    (h1 : A.x = B.x) (h2 : A.y = B.y) (h3 : A.r = B.r) : A = B := by
  cases A
  cases B
  simp_all

lemma ratCast_sq (s : ℚ) : ((s : ℝ)) ^ 2 = ((s ^ 2 : ℚ) : ℝ) := by
  push_cast
  ring

lemma sqrt_lt_ratCast (x s : ℚ) (hx : 0 ≤ x) (hs : 0 ≤ s) :
    Real.sqrt (x : ℝ) < (s : ℝ) ↔ x < s ^ 2 := by
  rw [Real.sqrt_lt (by exact_mod_cast hx) (by exact_mod_cast hs), ratCast_sq,
    Rat.cast_lt]

lemma ratCast_lt_sqrt (x s : ℚ) (hs : 0 ≤ s) :
    (s : ℝ) < Real.sqrt (x : ℝ) ↔ s ^ 2 < x := by
  rw [Real.lt_sqrt (by exact_mod_cast hs), ratCast_sq, Rat.cast_lt]

lemma sqrt_eq_ratCast (x s : ℚ) (hx : 0 ≤ x) (hs : 0 ≤ s) :
    Real.sqrt (x : ℝ) = (s : ℝ) ↔ x = s ^ 2 := by
  rw [Real.sqrt_eq_iff_eq_sq (by exact_mod_cast hx) (by exact_mod_cast hs),
    ratCast_sq, Rat.cast_inj]

lemma gcic_eq_same (A B : Circle) (h : A = B) :
    gfc_circle_intersect_circle A B = (-1, none) := by
  rw [gfc_circle_intersect_circle, if_pos h]

lemma gcic_eq_none (A B : Circle) (h : A ≠ B)
    (h0 : circleDist2 A B > (A.r + B.r) ^ 2 ∨ circleDist2 A B < (A.r - B.r) ^ 2) :
    gfc_circle_intersect_circle A B = (0, none) := by
  rw [gfc_circle_intersect_circle, if_neg h, if_pos h0]

lemma gcic_eq_pts (A B : Circle) (h : A ≠ B)
    (h0 : ¬(circleDist2 A B > (A.r + B.r) ^ 2 ∨ circleDist2 A B < (A.r - B.r) ^ 2)) :
    gfc_circle_intersect_circle A B =
      ((if circleDist2 A B = (A.r + B.r) ^ 2 ∨ circleDist2 A B = (A.r - B.r) ^ 2
        then (1 : Int) else 2),
       some (⟨(circleMid A B).1, (circleMid A B).2, 1, circleRad A B,
              -(B.y - A.y), B.x - A.x⟩,
             ⟨(circleMid A B).1, (circleMid A B).2, -1, circleRad A B,
              -(B.y - A.y), B.x - A.x⟩)) := by
  rw [gfc_circle_intersect_circle, if_neg h, if_neg h0]

lemma circleRad_factor (A B : Circle) (hpos : circleDist2 A B ≠ 0) :
    circleRad A B * (4 * circleDist2 A B ^ 2) =
      ((A.r + B.r) ^ 2 - circleDist2 A B) *
        (circleDist2 A B - (A.r - B.r) ^ 2) := by
  rw [circleRad, circleK]
  field_simp
  ring

lemma circle_points_coords (A B : Circle) (hpos : 0 < circleDist2 A B)
    (d aa hh ux uy : ℝ)
    (hd : d = Real.sqrt ((circleDist2 A B : ℝ)))
    (haa : aa = (d ^ 2 + (A.r : ℝ) ^ 2 - (B.r : ℝ) ^ 2) / (2 * d))
    (hhh : hh = Real.sqrt ((A.r : ℝ) ^ 2 - aa ^ 2))
    (hux : ux = ((B.x : ℝ) - (A.x : ℝ)) / d)
    (huy : uy = ((B.y : ℝ) - (A.y : ℝ)) / d) :
    (((circleMid A B).1 : ℝ) +
        Real.sqrt ((circleRad A B : ℝ)) * (-((B.y : ℝ) - (A.y : ℝ))) =
      (A.x : ℝ) + aa * ux - hh * uy) ∧
    (((circleMid A B).2 : ℝ) +
        Real.sqrt ((circleRad A B : ℝ)) * ((B.x : ℝ) - (A.x : ℝ)) =
      (A.y : ℝ) + aa * uy + hh * ux) ∧
    (((circleMid A B).1 : ℝ) +
        (-1) * Real.sqrt ((circleRad A B : ℝ)) * (-((B.y : ℝ) - (A.y : ℝ))) =
      (A.x : ℝ) + aa * ux + hh * uy) ∧
    (((circleMid A B).2 : ℝ) +
        (-1) * Real.sqrt ((circleRad A B : ℝ)) * ((B.x : ℝ) - (A.x : ℝ)) =
      (A.y : ℝ) + aa * uy - hh * ux) := by
  have hq0 : (0 : ℝ) < ((circleDist2 A B : ℝ)) := by exact_mod_cast hpos
  have hqne : circleDist2 A B ≠ 0 := ne_of_gt hpos
  have hdpos : 0 < d := by
    rw [hd]
    exact Real.sqrt_pos.mpr hq0
  have hdne : d ≠ 0 := ne_of_gt hdpos
  have hd2 : d ^ 2 = ((circleDist2 A B : ℝ)) := by
    rw [hd]
    exact Real.sq_sqrt hq0.le
  have hkd : aa = ((circleK A B : ℝ)) * d := by
    rw [haa, circleK]
    push_cast
    rw [← hd2]
    field_simp
    ring
  have hra : (A.r : ℝ) ^ 2 - aa ^ 2 = d ^ 2 * ((circleRad A B : ℝ)) := by
    rw [hkd, circleRad]
    push_cast
    rw [← hd2]
    field_simp
    ring
  have hhd : hh = d * Real.sqrt ((circleRad A B : ℝ)) := by
    rw [hhh, hra, Real.sqrt_mul (sq_nonneg d), Real.sqrt_sq hdpos.le]
  have hmx : (((circleMid A B).1 : ℝ)) =
      (A.x : ℝ) + ((circleK A B : ℝ)) * ((B.x : ℝ) - (A.x : ℝ)) := by
    simp only [circleMid]
    push_cast
    ring
  have hmy : (((circleMid A B).2 : ℝ)) =
      (A.y : ℝ) + ((circleK A B : ℝ)) * ((B.y : ℝ) - (A.y : ℝ)) := by
    simp only [circleMid]
    push_cast
    ring
  refine ⟨?_, ?_, ?_, ?_⟩
  · rw [hmx, hkd, hhd, hux, huy]
    field_simp
    ring
  · rw [hmy, hkd, hhd, hux, huy]
    field_simp
    ring
  · rw [hmx, hkd, hhd, hux, huy]
    field_simp
    ring
  · rw [hmy, hkd, hhd, hux, huy]
    field_simp
    ring

lemma truncQ_intCast (n : ℤ) : truncQ (n : ℚ) = n := by
  unfold truncQ
  rw [Rat.num_intCast, Rat.den_intCast]
  exact Int.tdiv_one n

/-- Claim C1 theorem: with d the distance between the centers,
`gfc_circle_intersect_circle` returns -1 iff the circles are identical;
0 iff (not identical and) `d > r_a+r_b` or `d < |r_a-r_b|`; 1 iff (not
identical and) `d = r_a+r_b` or `d = |r_a-r_b|`, in which case both
output points denote the same coordinate; and 2 otherwise; whenever the
points are produced they are exactly the spec's
`midpoint ± h·perpendicular(unitDir)` with
`a = (d²+r_a²-r_b²)/(2d)`, `h = sqrt(r_a²-a²)`,
`midpoint = centerA + a·unitDir`. -/
theorem gfc_circle_intersect_circle_spec (A B : Circle)
    (hA : 0 ≤ A.r) (hB : 0 ≤ B.r) (d aa hh ux uy : ℝ)
    (hd : d = Real.sqrt ((circleDist2 A B : ℝ)))
    (haa : aa = (d ^ 2 + (A.r : ℝ) ^ 2 - (B.r : ℝ) ^ 2) / (2 * d))
    (hhh : hh = Real.sqrt ((A.r : ℝ) ^ 2 - aa ^ 2))
    (hux : ux = ((B.x : ℝ) - (A.x : ℝ)) / d)
    (huy : uy = ((B.y : ℝ) - (A.y : ℝ)) / d) :
    ((gfc_circle_intersect_circle A B).1 = -1 ↔ A = B) ∧
    ((gfc_circle_intersect_circle A B).1 = 0 ↔
      A ≠ B ∧ ((A.r : ℝ) + (B.r : ℝ) < d ∨ d < |(A.r : ℝ) - (B.r : ℝ)|)) ∧
    ((gfc_circle_intersect_circle A B).1 = 1 ↔
      A ≠ B ∧ (d = (A.r : ℝ) + (B.r : ℝ) ∨ d = |(A.r : ℝ) - (B.r : ℝ)|)) ∧
    ((gfc_circle_intersect_circle A B).1 = 2 ↔
      A ≠ B ∧ |(A.r : ℝ) - (B.r : ℝ)| < d ∧ d < (A.r : ℝ) + (B.r : ℝ)) ∧
    (∀ P Q : SqrtPt, (gfc_circle_intersect_circle A B).2 = some (P, Q) →
      (((gfc_circle_intersect_circle A B).1 = 1 →
        ((P.px : ℝ) + (P.co : ℝ) * Real.sqrt ((P.rad : ℝ)) * (P.dx : ℝ),
         (P.py : ℝ) + (P.co : ℝ) * Real.sqrt ((P.rad : ℝ)) * (P.dy : ℝ)) =
        ((Q.px : ℝ) + (Q.co : ℝ) * Real.sqrt ((Q.rad : ℝ)) * (Q.dx : ℝ),
         (Q.py : ℝ) + (Q.co : ℝ) * Real.sqrt ((Q.rad : ℝ)) * (Q.dy : ℝ))) ∧
       ((P.px : ℝ) + (P.co : ℝ) * Real.sqrt ((P.rad : ℝ)) * (P.dx : ℝ) =
          (A.x : ℝ) + aa * ux - hh * uy) ∧
       ((P.py : ℝ) + (P.co : ℝ) * Real.sqrt ((P.rad : ℝ)) * (P.dy : ℝ) =
          (A.y : ℝ) + aa * uy + hh * ux) ∧
       ((Q.px : ℝ) + (Q.co : ℝ) * Real.sqrt ((Q.rad : ℝ)) * (Q.dx : ℝ) =
          (A.x : ℝ) + aa * ux + hh * uy) ∧
       ((Q.py : ℝ) + (Q.co : ℝ) * Real.sqrt ((Q.rad : ℝ)) * (Q.dy : ℝ) =
          (A.y : ℝ) + aa * uy - hh * ux))) := by
  by_cases hAB : A = B
  · rw [gcic_eq_same A B hAB]
    exact ⟨by simp [hAB], by norm_num [hAB], by norm_num [hAB],
      by norm_num [hAB], by simp⟩
  · have hq2 := circleDist2_nonneg A B
    have hs : (0 : ℚ) ≤ A.r + B.r := add_nonneg hA hB
    have hm0 : (0 : ℚ) ≤ |A.r - B.r| := abs_nonneg _
    have hsm : (A.r - B.r) ^ 2 ≤ (A.r + B.r) ^ 2 := by
      nlinarith [mul_nonneg hA hB]
    have hcs : (A.r : ℝ) + (B.r : ℝ) = ((A.r + B.r : ℚ) : ℝ) := by
      push_cast
      ring
    have hcm : |(A.r : ℝ) - (B.r : ℝ)| = ((|A.r - B.r| : ℚ) : ℝ) := by
      push_cast
      ring
    have br1 : ((A.r : ℝ) + (B.r : ℝ) < d) ↔ (A.r + B.r) ^ 2 < circleDist2 A B := by
      rw [hcs, hd]
      exact ratCast_lt_sqrt _ _ hs
    have br2 : (d < |(A.r : ℝ) - (B.r : ℝ)|) ↔ circleDist2 A B < (A.r - B.r) ^ 2 := by
      rw [hcm, hd, sqrt_lt_ratCast _ _ hq2 hm0, sq_abs]
    have br3 : (d = (A.r : ℝ) + (B.r : ℝ)) ↔ circleDist2 A B = (A.r + B.r) ^ 2 := by
      rw [hcs, hd]
      exact sqrt_eq_ratCast _ _ hq2 hs
    have br4 : (d = |(A.r : ℝ) - (B.r : ℝ)|) ↔ circleDist2 A B = (A.r - B.r) ^ 2 := by
      rw [hcm, hd, sqrt_eq_ratCast _ _ hq2 hm0, sq_abs]
    have br5 : (|(A.r : ℝ) - (B.r : ℝ)| < d) ↔ (A.r - B.r) ^ 2 < circleDist2 A B := by
      rw [hcm, hd, ratCast_lt_sqrt _ _ hm0, sq_abs]
    have br6 : (d < (A.r : ℝ) + (B.r : ℝ)) ↔ circleDist2 A B < (A.r + B.r) ^ 2 := by
      rw [hcs, hd, sqrt_lt_ratCast _ _ hq2 hs]
    by_cases h0 : circleDist2 A B > (A.r + B.r) ^ 2 ∨ circleDist2 A B < (A.r - B.r) ^ 2
    · rw [gcic_eq_none A B hAB h0]
      refine ⟨iff_of_false (by norm_num) hAB, ?_, ?_, ?_, ?_⟩
      · refine iff_of_true rfl ⟨hAB, ?_⟩
        rcases h0 with h | h
        · exact Or.inl (br1.mpr h)
        · exact Or.inr (br2.mpr h)
      · refine iff_of_false (by norm_num) ?_
        rintro ⟨-, hc | hc⟩
        · have hq := br3.mp hc
          rcases h0 with h | h
          · exact absurd hq (ne_of_gt h)
          · linarith
        · have hq := br4.mp hc
          rcases h0 with h | h
          · linarith
          · exact absurd hq (ne_of_lt h)
      · refine iff_of_false (by norm_num) ?_
        rintro ⟨-, hml, hls⟩
        have h5 := br5.mp hml
        have h6 := br6.mp hls
        rcases h0 with h | h
        · linarith
        · linarith
      · intro P Q hPQ
        exact absurd hPQ (by simp)
    · have hle := h0
      push_neg at hle
      have hq2pos : 0 < circleDist2 A B := by
        rcases hq2.lt_or_eq with h | h
        · exact h
        · exfalso
          obtain ⟨hx, hy⟩ := (circleDist2_eq_zero_iff A B).mp h.symm
          have hr2 : (A.r - B.r) ^ 2 ≤ 0 := by
            have := hle.2
            rw [← h] at this
            exact this
          have hr0 : A.r - B.r = 0 :=
            (pow_eq_zero_iff two_ne_zero).mp (le_antisymm hr2 (sq_nonneg _))
          exact hAB (circle_eq_of_fields A B hx.symm hy.symm (by linarith))
      have hco := circle_points_coords A B hq2pos d aa hh ux uy hd haa hhh hux huy
      by_cases h1e : circleDist2 A B = (A.r + B.r) ^ 2 ∨
          circleDist2 A B = (A.r - B.r) ^ 2
      · have hv := gcic_eq_pts A B hAB h0
        rw [if_pos h1e] at hv
        rw [hv]
        have hrad0 : circleRad A B = 0 := by
          have hz : circleRad A B * (4 * circleDist2 A B ^ 2) = 0 := by
            rw [circleRad_factor A B (ne_of_gt hq2pos)]
            rcases h1e with h | h
            · rw [h]
              ring
            · rw [h]
              ring
          have h4 : (4 : ℚ) * circleDist2 A B ^ 2 ≠ 0 :=
            mul_ne_zero (by norm_num) (pow_ne_zero 2 (ne_of_gt hq2pos))
          exact (mul_eq_zero.mp hz).resolve_right h4
        refine ⟨iff_of_false (by norm_num) hAB, ?_, ?_, ?_, ?_⟩
        · refine iff_of_false (by norm_num) ?_
          rintro ⟨-, hc | hc⟩
          · have := br1.mp hc
            linarith [hle.1]
          · have := br2.mp hc
            linarith [hle.2]
        · refine iff_of_true rfl ⟨hAB, ?_⟩
          rcases h1e with h | h
          · exact Or.inl (br3.mpr h)
          · exact Or.inr (br4.mpr h)
        · refine iff_of_false (by norm_num) ?_
          rintro ⟨-, hml, hls⟩
          have h5 := br5.mp hml
          have h6 := br6.mp hls
          rcases h1e with h | h
          · exact absurd h (ne_of_lt h6)
          · exact absurd h (ne_of_lt h5).symm
        · intro P Q hPQ
          simp only [Option.some.injEq, Prod.mk.injEq] at hPQ
          obtain ⟨hP, hQ⟩ := hPQ
          subst hP
          subst hQ
          refine ⟨?_, ?_, ?_, ?_, ?_⟩
          · rintro -
            dsimp only
            simp only [Prod.mk.injEq]
            rw [hrad0]
            push_cast [Real.sqrt_zero]
            constructor <;> ring
          · dsimp only
            push_cast
            linear_combination hco.1
          · dsimp only
            push_cast
            linear_combination hco.2.1
          · dsimp only
            push_cast
            linear_combination hco.2.2.1
          · dsimp only
            push_cast
            linear_combination hco.2.2.2
      · have hv := gcic_eq_pts A B hAB h0
        rw [if_neg h1e] at hv
        rw [hv]
        have hlt1 : circleDist2 A B < (A.r + B.r) ^ 2 :=
          lt_of_le_of_ne hle.1 (fun h => h1e (Or.inl h))
        have hlt2 : (A.r - B.r) ^ 2 < circleDist2 A B :=
          lt_of_le_of_ne hle.2 (fun h => h1e (Or.inr h.symm))
        refine ⟨iff_of_false (by norm_num) hAB, ?_, ?_, ?_, ?_⟩
        · refine iff_of_false (by norm_num) ?_
          rintro ⟨-, hc | hc⟩
          · have := br1.mp hc
            linarith
          · have := br2.mp hc
            linarith
        · refine iff_of_false (by norm_num) ?_
          rintro ⟨-, hc | hc⟩
          · have := br3.mp hc
            linarith
          · have := br4.mp hc
            linarith
        · exact iff_of_true rfl ⟨hAB, br5.mpr hlt2, br6.mpr hlt1⟩
        · intro P Q hPQ
          simp only [Option.some.injEq, Prod.mk.injEq] at hPQ
          obtain ⟨hP, hQ⟩ := hPQ
          subst hP
          subst hQ
          refine ⟨?_, ?_, ?_, ?_, ?_⟩
          · intro habs
            exact absurd habs (by norm_num)
          · dsimp only
            push_cast
            linear_combination hco.1
          · dsimp only
            push_cast
            linear_combination hco.2.1
          · dsimp only
            push_cast
            linear_combination hco.2.2.1
          · dsimp only
            push_cast
            linear_combination hco.2.2.2

/-- Claim C1 witness: the theorem applied to the tangent pair of the
spec's test vectors (centers (0,0) and (10,0), both radius 5) yields
count 1, and the remaining test vectors evaluate to 2, -1 and 0. -/
theorem gfc_circle_intersect_circle_spec_witness :
    (gfc_circle_intersect_circle ⟨0, 0, 5⟩ ⟨10, 0, 5⟩).1 = 1 ∧
    (gfc_circle_intersect_circle ⟨0, 0, 5⟩ ⟨3, 0, 5⟩).1 = 2 ∧
    (gfc_circle_intersect_circle ⟨0, 0, 1⟩ ⟨0, 0, 1⟩).1 = -1 ∧
    (gfc_circle_intersect_circle ⟨0, 0, 1⟩ ⟨5, 0, 1⟩).1 = 0 := by
  have h := gfc_circle_intersect_circle_spec ⟨0, 0, 5⟩ ⟨10, 0, 5⟩
    (by norm_num) (by norm_num) _ _ _ _ _ rfl rfl rfl rfl rfl
  refine ⟨h.2.2.1.mpr ⟨?_, Or.inl ?_⟩, ?_, ?_, ?_⟩
  · simp [Circle.mk.injEq]
  · have hc : ((circleDist2 ⟨0, 0, 5⟩ ⟨10, 0, 5⟩ : ℚ) : ℝ) = 100 := by
      norm_num [circleDist2]
    rw [hc, show (100 : ℝ) = 10 ^ 2 by norm_num, Real.sqrt_sq (by norm_num)]
    norm_num
  · norm_num [gfc_circle_intersect_circle, circleDist2, Circle.mk.injEq]
  · norm_num [gfc_circle_intersect_circle]
  · norm_num [gfc_circle_intersect_circle, circleDist2, Circle.mk.injEq]

/-- Claim C4 theorem: the edge intersection (boolean and poc variants
report the same) holds iff the determinant of the 2×2 parametric system is
non-zero and the (unique) solution parameters t and u both lie in the
closed interval [0,1]; parallel edges (zero determinant), including
exactly collinear overlapping ones such as (0,0)-(2,0) and (1,0)-(3,0),
are always reported as non-intersecting. -/
theorem gfc_edge_intersect_spec :
    (∀ (a b : Edge) (w1 w2 : Bool),
      (gfc_edge_intersect_poc a b w1 w2).1 = gfc_edge_intersect a b) ∧
    (∀ a b : Edge, gfc_edge_intersect a b = true ↔
      (edgeDet a b ≠ 0 ∧ ∃ t u : ℚ, 0 ≤ t ∧ t ≤ 1 ∧ 0 ≤ u ∧ u ≤ 1 ∧
        a.x1 + t * (a.x2 - a.x1) = b.x1 + u * (b.x2 - b.x1) ∧
        a.y1 + t * (a.y2 - a.y1) = b.y1 + u * (b.y2 - b.y1))) ∧
    (∀ a b : Edge, edgeDet a b = 0 → gfc_edge_intersect a b = false) ∧
    gfc_edge_intersect ⟨0, 0, 2, 0⟩ ⟨1, 0, 3, 0⟩ = false := by
  refine ⟨fun a b w1 w2 => rfl, gfc_edge_intersect_iff, ?_, ?_⟩
  · intro a b h
    rw [gfc_edge_intersect_eq]
    simp [h]
  · have h0 : edgeDet ⟨0, 0, 2, 0⟩ ⟨1, 0, 3, 0⟩ = 0 := by
      norm_num [edgeDet]
    rw [gfc_edge_intersect_eq]
    simp [h0]

/-- Claim C4 witness: the theorem applied to a concrete parallel pair of
edges, discharging the zero-determinant hypothesis there. -/
theorem gfc_edge_intersect_spec_witness :
    gfc_edge_intersect ⟨0, 0, 1, 1⟩ ⟨2, 2, 3, 3⟩ = false :=
  gfc_edge_intersect_spec.2.2.1 ⟨0, 0, 1, 1⟩ ⟨2, 2, 3, 3⟩ (by norm_num [edgeDet])

/-- Claim C2 theorem: shape overlap is symmetric across all nine tag
combinations. -/
theorem gfc_shape_overlap_symm :
    ∀ a b : Shape, gfc_shape_overlap a b = gfc_shape_overlap b a := by
  intro a b
  cases a with
  | rect ra =>
    cases b with
    | rect rb => exact gfc_rect_overlap_symm ra rb
    | circle cb => rfl
    | edge eb => rfl
  | circle ca =>
    cases b with
    | rect rb => rfl
    | circle cb => exact gfc_circle_overlap_symm ca cb
    | edge eb => rfl
  | edge ea =>
    cases b with
    | rect rb => rfl
    | circle cb => rfl
    | edge eb => exact gfc_edge_intersect_symm ea eb

/-- Claim C3 theorem: rect overlap holds iff all four projection
inequalities hold strictly, so rects that merely touch along an edge,
such as rect(0,0,10,10) and rect(10,0,10,10), do not overlap. -/
theorem gfc_rect_overlap_spec :
    (∀ a b : Rect, gfc_rect_overlap a b = true ↔
      (a.x < b.x + b.w ∧ b.x < a.x + a.w ∧ a.y < b.y + b.h ∧ b.y < a.y + a.h)) ∧
    gfc_rect_overlap ⟨0, 0, 10, 10⟩ ⟨10, 0, 10, 10⟩ = false := by
  constructor
  · intro a b
    simp [gfc_rect_overlap]
  · norm_num [gfc_rect_overlap]

/-- Claim C5 theorem: `gfc_point_in_shape` returns false for every point
against an Edge shape (including points exactly on the edge, since the
result is false for all points whatsoever), and returns exactly the
point-in-rect and point-in-circle tests for Rect and Circle shapes. -/
theorem gfc_point_in_shape_spec :
    (∀ (p : Vector2D) (e : Edge), gfc_point_in_shape p (Shape.edge e) = false) ∧
    (∀ (p : Vector2D) (r : Rect),
      gfc_point_in_shape p (Shape.rect r) = gfc_point_in_rect p r) ∧
    (∀ (p : Vector2D) (c : Circle),
      gfc_point_in_shape p (Shape.circle c) = gfc_point_in_cicle p c) :=
  ⟨fun _ _ => rfl, fun _ _ => rfl, fun _ _ => rfl⟩

/-- Claim C6 theorem: `gfc_point_in_rect` is true iff
`r.x ≤ p.x ≤ r.x+r.w` and `r.y ≤ p.y ≤ r.y+r.h`, with inclusive bounds on
all four sides, so boundary points are inside. -/
theorem gfc_point_in_rect_spec :
    ∀ (p : Vector2D) (r : Rect),
      gfc_point_in_rect p r = true ↔
        (r.x ≤ p.x ∧ p.x ≤ r.x + r.w ∧ r.y ≤ p.y ∧ p.y ≤ r.y + r.h) := by
  intro p r
  simp [gfc_point_in_rect]

/-- Claim C9 theorem: converting a foreign rectangle (SDL_Rect or
Vector4D) into a gfc Rect and back returns the original value
field-for-field, with no scaling. -/
theorem gfc_rect_round_trip :
    (∀ v : SDL_Rect, gfc_rect_to_sdl_rect (gfc_rect_from_sdl_rect v) = v) ∧
    (∀ v : Vector4D, gfc_rect_to_vector4d (gfc_rect_from_vector4 v) = v) := by
  constructor
  · intro v
    cases v
    simp [gfc_rect_from_sdl_rect, gfc_rect_to_sdl_rect, truncQ_intCast]
  · intro v
    cases v
    rfl

/-- Claim C7 counterexample: `gfc_random_seeded` mutates the global PRNG
state — calling it with seed 0 while the global state is 123 leaves the
global state at 12345, not 123, so not every operation in the repository
is free of global-state mutation. -/
theorem gfc_random_seeded_mutates_state :
    (gfc_random_seeded 0 123).2 ≠ 123 := by
  decide

/-- Claim C7 amended theorem: `gfc_random_seeded` is deterministic in its
seed argument — the returned value and the resulting global PRNG state do
not depend on the prior global state (because `srand` overwrites it), so
two calls with the same seed return the same result even though the call
mutates the global state. -/
theorem gfc_random_seeded_depends_only_on_seed :
    ∀ (seed st st2 : Nat), gfc_random_seeded seed st = gfc_random_seeded seed st2 :=
  fun _ _ _ => rfl

/-- Claim C8 theorem: for every overlap/intersection operation with
optional point-of-contact and normal output pointers — rect-rect,
circle-circle, circle-rect, edge-edge, edge-rect, edge-circle, the two
shape-level dispatches and the circle-circle true-intersection — a NULL
output pointer (a `false` want-flag) means that output is never produced
(never written through), the call always succeeds, and the
boolean/integer result is the same whatever combination of output
pointers is passed. -/
theorem gfc_optional_outputs_spec :
    ∀ (a b : Circle) (e f : Edge) (ra rb : Rect) (sa sb : Shape) (w1 w2 : Bool),
      ((gfc_circle_overlap_poc a b w1 w2).1 = gfc_circle_overlap a b) ∧
      (w1 = false → (gfc_circle_overlap_poc a b w1 w2).2.1 = none) ∧
      (w2 = false → (gfc_circle_overlap_poc a b w1 w2).2.2 = none) ∧
      ((gfc_edge_intersect_poc e f w1 w2).1 = gfc_edge_intersect e f) ∧
      (w1 = false → (gfc_edge_intersect_poc e f w1 w2).2.1 = none) ∧
      (w2 = false → (gfc_edge_intersect_poc e f w1 w2).2.2 = none) ∧
      ((gfc_rect_overlap_poc ra rb w1 w2).1 = gfc_rect_overlap ra rb) ∧
      (w1 = false → (gfc_rect_overlap_poc ra rb w1 w2).2.1 = none) ∧
      (w2 = false → (gfc_rect_overlap_poc ra rb w1 w2).2.2 = none) ∧
      ((gfc_circle_rect_overlap_poc a ra w1 w2).1 = gfc_circle_rect_overlap a ra) ∧
      (w1 = false → (gfc_circle_rect_overlap_poc a ra w1 w2).2.1 = none) ∧
      (w2 = false → (gfc_circle_rect_overlap_poc a ra w1 w2).2.2 = none) ∧
      ((gfc_edge_rect_intersection_poc e ra w1 w2).1 =
        gfc_edge_rect_intersection e ra) ∧
      (w1 = false → (gfc_edge_rect_intersection_poc e ra w1 w2).2.1 = none) ∧
      (w2 = false → (gfc_edge_rect_intersection_poc e ra w1 w2).2.2 = none) ∧
      ((gfc_edge_circle_intersection_poc e a w1 w2).1 =
        gfc_edge_circle_intersection e a) ∧
      (w1 = false → (gfc_edge_circle_intersection_poc e a w1 w2).2.1 = none) ∧
      (w2 = false → (gfc_edge_circle_intersection_poc e a w1 w2).2.2 = none) ∧
      ((gfc_edge_intersect_shape_poc e sa w1 w2).1 =
        gfc_edge_intersect_shape e sa) ∧
      (w1 = false → (gfc_edge_intersect_shape_poc e sa w1 w2).2.1 = none) ∧
      (w2 = false → (gfc_edge_intersect_shape_poc e sa w1 w2).2.2 = none) ∧
      ((gfc_shape_overlap_poc sa sb w1 w2).1 = gfc_shape_overlap sa sb) ∧
      (w1 = false → (gfc_shape_overlap_poc sa sb w1 w2).2.1 = none) ∧
      (w2 = false → (gfc_shape_overlap_poc sa sb w1 w2).2.2 = none) ∧
      ((gfc_circle_intersect_circle_pocs a b w1 w2).1 =
        (gfc_circle_intersect_circle a b).1) ∧
      (w1 = false → (gfc_circle_intersect_circle_pocs a b w1 w2).2.1 = none) ∧
      (w2 = false → (gfc_circle_intersect_circle_pocs a b w1 w2).2.2 = none) := by
  intro a b e f ra rb sa sb w1 w2
  refine ⟨rfl, ?_, ?_, rfl, ?_, ?_, rfl, ?_, ?_, rfl, ?_, ?_, rfl, ?_, ?_, rfl,
    ?_, ?_, by cases sa <;> rfl, ?_, ?_, by cases sa <;> cases sb <;> rfl,
    ?_, ?_, rfl, ?_, ?_⟩ <;>
    rintro rfl <;>
    first
      | simp [gfc_circle_overlap_poc, gfc_edge_intersect_poc,
          gfc_rect_overlap_poc, gfc_circle_rect_overlap_poc,
          gfc_edge_rect_intersection_poc, gfc_edge_circle_intersection_poc,
          gfc_circle_intersect_circle_pocs]
      | cases sa <;> cases sb <;>
          simp [gfc_edge_intersect_shape_poc, gfc_shape_overlap_poc,
            gfc_circle_overlap_poc, gfc_edge_intersect_poc,
            gfc_rect_overlap_poc, gfc_circle_rect_overlap_poc,
            gfc_edge_rect_intersection_poc, gfc_edge_circle_intersection_poc]

/-- Claim C8 witness: the theorem applied to concrete circles, edges,
rects and shapes with both output pointers NULL, for each of the nine
operations. -/
theorem gfc_optional_outputs_spec_witness :
    (gfc_circle_overlap_poc ⟨0, 0, 5⟩ ⟨10, 0, 5⟩ false false).2.1 = none ∧
    (gfc_edge_intersect_poc ⟨0, 0, 1, 1⟩ ⟨0, 1, 1, 0⟩ false false).2.2 = none ∧
    (gfc_rect_overlap_poc ⟨0, 0, 4, 4⟩ ⟨2, 2, 4, 4⟩ false false).2.1 = none ∧
    (gfc_circle_rect_overlap_poc ⟨0, 0, 5⟩ ⟨0, 0, 4, 4⟩ false false).2.2 = none ∧
    (gfc_edge_rect_intersection_poc ⟨0, 0, 1, 1⟩ ⟨0, 0, 4, 4⟩ false false).2.1 = none ∧
    (gfc_edge_circle_intersection_poc ⟨0, 0, 1, 1⟩ ⟨0, 0, 5⟩ false false).2.2 = none ∧
    (gfc_edge_intersect_shape_poc ⟨0, 0, 1, 1⟩ (Shape.circle ⟨0, 0, 5⟩)
      false false).2.1 = none ∧
    (gfc_shape_overlap_poc (Shape.circle ⟨0, 0, 5⟩) (Shape.rect ⟨0, 0, 4, 4⟩)
      false false).2.2 = none ∧
    (gfc_circle_intersect_circle_pocs ⟨0, 0, 5⟩ ⟨10, 0, 5⟩ false false).2.1 = none := by
  have h := gfc_optional_outputs_spec ⟨0, 0, 5⟩ ⟨10, 0, 5⟩ ⟨0, 0, 1, 1⟩
    ⟨0, 1, 1, 0⟩ ⟨0, 0, 4, 4⟩ ⟨2, 2, 4, 4⟩ (Shape.circle ⟨0, 0, 5⟩)
    (Shape.rect ⟨0, 0, 4, 4⟩) false false
  obtain ⟨-, h2, -, -, -, h6, -, h8, -, -, -, h12, -, h14, -, -, -, h18, -,
    h20, -, -, -, h24, -, h26, -⟩ := h
  exact ⟨h2 rfl, h6 rfl, h8 rfl, h12 rfl, h14 rfl, h18 rfl, h20 rfl,
    h24 rfl, h26 rfl⟩

/-- Claim C10 counterexample: the `size_t` product `typeSize * count`
wraps modulo `2^64`, so for `typeSize = 2^63 + 1` and `count = 2` the
function returns a non-NULL block of only 2 bytes, not `typeSize * count`
bytes. -/
theorem gfc_allocate_array_overflow_counterexample :
    gfc_allocate_array (fun _ => true) (2 ^ 63 + 1) 2 = some (List.replicate 2 0) ∧
    (List.replicate 2 (0 : Nat)).length ≠ (2 ^ 63 + 1) * 2 := by
  constructor
  · rfl
  · decide

/-- Claim C10 amended theorem: `gfc_allocate_array` returns NULL exactly
when `count` is 0, `typeSize` is 0, or the underlying allocation fails;
on any non-NULL return the block consists of `typeSize * count mod 2^64`
bytes (the `size_t` product), all zero. -/
theorem gfc_allocate_array_spec :
    ∀ (alloc : Nat → Bool) (typeSize count : Nat),
      (gfc_allocate_array alloc typeSize count = none ↔
        count = 0 ∨ typeSize = 0 ∨ alloc (typeSize * count % 2 ^ 64) = false) ∧
      (∀ bs, gfc_allocate_array alloc typeSize count = some bs →
        bs.length = typeSize * count % 2 ^ 64 ∧ ∀ x ∈ bs, x = 0) := by
  intro alloc typeSize count
  by_cases h1 : count = 0
  · simp [gfc_allocate_array, h1]
  by_cases h2 : typeSize = 0
  · simp [gfc_allocate_array, h1, h2]
  have hun : gfc_allocate_array alloc typeSize count =
      if alloc (typeSize * count % 2 ^ 64) = true
      then some (List.replicate (typeSize * count % 2 ^ 64) 0) else none := by
    simp only [gfc_allocate_array, if_neg h1, if_neg h2]
  rw [hun]
  simp only [h1, h2, false_or]
  generalize typeSize * count % 2 ^ 64 = size
  cases hA : alloc size
  · simp [hA]
  · simp only [hA, if_true, Option.some.injEq]
    constructor
    · simp
    · intro bs hbs
      rw [← hbs]
      refine ⟨List.length_replicate _ _, ?_⟩
      intro x hx
      exact List.eq_of_mem_replicate hx

/-- Claim C10 witness: the amended theorem applied to a concrete
allocation of 3 elements of size 4 with an always-succeeding allocator. -/
theorem gfc_allocate_array_spec_witness :
    (List.replicate 12 (0 : Nat)).length = 4 * 3 % 2 ^ 64 ∧
    ∀ x ∈ List.replicate 12 (0 : Nat), x = 0 :=
  (gfc_allocate_array_spec (fun _ => true) 4 3).2 (List.replicate 12 0) rfl

end Gfc
